import Mathlib

set_option linter.unusedVariables false

/-!
# A model of the `wobbly` reference-counting library

Shallow embedding of the `Wobbly<T>` pointer type from `src/rc.rs` and
`src/sync.rs`.  Both variants are structurally identical: a `Wobbly` holds a
weak handle `weak` to the allocation together with a shared boolean cell
`should_decref` (an `Rc<Cell<bool>>` resp. `Arc<AtomicBool>`).  We model the
state of one reference-counted allocation (its strong and weak counters)
together with the pool of `should_decref` cells that `Wobbly::new` allocates;
a `Wobbly` handle is then identified by the index of its cell.  The
single-threaded `Cell::replace(false)` and the sequential meaning of the
atomic `compare_exchange(true, false)` coincide, so one model covers both
files.  The counters follow the documented semantics of `std`'s `Rc`/`Arc`:
`downgrade` and cloning a `Weak` add one weak-count unit, dropping a `Weak`
removes one, `decrement_strong_count` removes one strong unit, and a `Weak`
upgrade succeeds exactly when the strong count is positive (adding one strong
unit for the returned handle).
-/

/-- Counters of the one modelled reference-counted allocation: `strong` is the
strong count, `weakN` the number of live weak handles (the value reported by
`weak_count()` while the strong count is positive). -/
structure AllocState where
  strong : Nat
  weakN : Nat
deriving DecidableEq

/-- Global state: the allocation's counters plus the pool of `should_decref`
cells; cell `g` of a group lives at index `g` of `flags`. -/
structure Heap where
  alloc : AllocState
  flags : List Bool
deriving DecidableEq

/-- The current value of flag cell `g` (reading an unallocated cell defaults
to `false`; every cell actually created by `Wobbly::new` is in range). -/
def Heap.flagAt (h : Heap) (g : Nat) : Bool :=
  h.flags.getD g false

namespace Rc

/-- `Rc::downgrade(&strong)` / `Arc::downgrade(&strong)`: creates a new weak
handle to the allocation, adding one weak-count unit. -/
def downgrade (h : Heap) : Heap :=
  { h with alloc := { h.alloc with weakN := h.alloc.weakN + 1 } }

/-- `Rc::decrement_strong_count(ptr)` / `Arc::decrement_strong_count(ptr)`:
the detached decrement of the strong count through the allocation's address. -/
def decrement_strong_count (h : Heap) : Heap :=
  { h with alloc := { h.alloc with strong := h.alloc.strong - 1 } }

end Rc

namespace Weak

/-- `Weak::clone`: one more weak handle, one more weak-count unit. -/
def clone (h : Heap) : Heap :=
  { h with alloc := { h.alloc with weakN := h.alloc.weakN + 1 } }

/-- Destruction of one weak handle: releases its weak-count unit. -/
def drop (h : Heap) : Heap :=
  { h with alloc := { h.alloc with weakN := h.alloc.weakN - 1 } }

/-- `Weak::upgrade`: returns a strong handle (adding one strong unit) exactly
when the strong count is still positive, and `none` otherwise. -/
def upgrade (h : Heap) : Option Unit × Heap :=
  if 0 < h.alloc.strong then
    (some (), { h with alloc := { h.alloc with strong := h.alloc.strong + 1 } })
  else
    (none, h)

/-- `Weak::weak_count`: the number of weak handles, or `0` once the strong
count has reached zero. -/
def weak_count (h : Heap) : Nat :=
  if 0 < h.alloc.strong then h.alloc.weakN else 0

/-- `Weak::strong_count`: the allocation's strong count. -/
def strong_count (h : Heap) : Nat :=
  h.alloc.strong

end Weak

namespace Cell

/-- `Cell::replace` on flag cell `g` (also the sequential meaning of
`AtomicBool::compare_exchange(true, false)`: it returns the old value and the
cell afterwards holds `v = false` in the only use in the program). -/
def replace (g : Nat) (v : Bool) (h : Heap) : Bool × Heap :=
  (h.flagAt g, { h with flags := h.flags.set g v })

end Cell

/-- The `Wobbly` handle: its `weak` field is a weak handle to the (single)
modelled allocation and carries no further data, so the handle is identified
by `should_decref`, the index of its group's shared flag cell. -/
structure Wobbly where
  should_decref : Nat
deriving DecidableEq

namespace Wobbly

/-- `Wobbly::new(strong)`: derives `weak = Rc::downgrade(&strong)`, then
`core::mem::forget(strong)` suppresses the strong handle's destructor (no
counter change: its strong unit is retained), and a fresh `should_decref`
cell is allocated holding `true`. -/
def new (h : Heap) : Wobbly × Heap :=
  let h1 := Rc.downgrade h
  (⟨h1.flags.length⟩, { h1 with flags := h1.flags ++ [true] })

/-- `Wobbly::downgrade`: `self.weak.clone()`; the returned weak handle's
existence is the one weak-count unit added. -/
def downgrade (w : Wobbly) (h : Heap) : Heap :=
  Weak.clone h

/-- `Wobbly::upgrade`: `self.weak.upgrade()`. -/
def upgrade (w : Wobbly) (h : Heap) : Option Unit × Heap :=
  Weak.upgrade h

/-- `Wobbly::weak_count`: `self.weak.weak_count()`, a pure read. -/
def weak_count (w : Wobbly) (h : Heap) : Nat × Heap :=
  (Weak.weak_count h, h)

/-- `Wobbly::strong_count`: `self.weak.strong_count()`, a pure read. -/
def strong_count (w : Wobbly) (h : Heap) : Nat × Heap :=
  (Weak.strong_count h, h)

/-- `<Wobbly as Clone>::clone`: clones the weak handle and shares (not
copies) the `should_decref` cell. -/
def clone (w : Wobbly) (h : Heap) : Wobbly × Heap :=
  (⟨w.should_decref⟩, Weak.clone h)

/-- `<Wobbly as Drop>::drop`: `self.should_decref.replace(false)` (resp. the
compare-exchange from `true` to `false`); on observing `true` it performs the
detached strong-count decrement; afterwards the handle's own `weak` field is
destroyed by the normal field teardown. -/
def drop (w : Wobbly) (h : Heap) : Heap :=
  let r := Cell.replace w.should_decref false h
  Weak.drop (if r.1 then Rc.decrement_strong_count r.2 else r.2)

end Wobbly

/-- Drop a list of `Wobbly` handles, left to right. -/
def dropAll (ws : List Wobbly) (h : Heap) : Heap :=
  ws.foldl (fun hh w => Wobbly.drop w hh) h

/-- Perform `n` `clone` calls on handle `w` (each clone returns another handle
equal to `w`, so only the heap effect matters). -/
def cloneN : Nat → Wobbly → Heap → Heap
  | 0, _, h => h
  | n + 1, w, h => cloneN n w (Wobbly.clone w h).2

/-- A heap holding exactly one owned strong handle and nothing else. -/
def heap1 : Heap := { alloc := { strong := 1, weakN := 0 }, flags := [] }

/-- A heap holding two independent owned strong handles. -/
def heap2 : Heap := { alloc := { strong := 2, weakN := 0 }, flags := [] }

/-- A heap whose value is gone (strong count zero) with one live `Wobbly`
whose group flag is already `false`. -/
def heapReleased : Heap := { alloc := { strong := 0, weakN := 1 }, flags := [false] }

/-! ## Helper lemmas about flag cells -/

theorem flags_getD_append (l m : List Bool) (a d : Bool) :
    (l ++ a :: m).getD l.length d = a := by
  induction l with
  | nil => rfl
  | cons x xs ih => simpa using ih

theorem flags_set_append (l m : List Bool) (a b : Bool) :
    (l ++ a :: m).set l.length b = l ++ b :: m := by
  induction l with
  | nil => rfl
  | cons x xs ih => simp [ih]

theorem flags_getD_append_snd (l m : List Bool) (a b d : Bool) :
    (l ++ a :: b :: m).getD (l.length + 1) d = b := by
  induction l with
  | nil => rfl
  | cons x xs ih => simpa using ih

theorem flags_set_append_snd (l m : List Bool) (a b c : Bool) :
    (l ++ a :: b :: m).set (l.length + 1) c = l ++ a :: c :: m := by
  induction l with
  | nil => rfl
  | cons x xs ih => simp [ih]

theorem flags_getD_set_self (l : List Bool) (g : Nat) :
    (l.set g false).getD g false = false := by
  induction l generalizing g with
  | nil => simp [List.getD]
  | cons x xs ih =>
      cases g with
      | zero => rfl
      | succ n => simpa using ih n

/-! ## Helper lemmas about `Wobbly.drop` -/

theorem drop_eq_of_flag_true (w : Wobbly) (h : Heap)
    (hf : h.flagAt w.should_decref = true) :
    Wobbly.drop w h =
      { alloc := { strong := h.alloc.strong - 1, weakN := h.alloc.weakN - 1 },
        flags := h.flags.set w.should_decref false } := by
  simp [Wobbly.drop, Cell.replace, Weak.drop, Rc.decrement_strong_count, hf]

theorem drop_eq_of_flag_false (w : Wobbly) (h : Heap)
    (hf : h.flagAt w.should_decref = false) :
    Wobbly.drop w h =
      { alloc := { strong := h.alloc.strong, weakN := h.alloc.weakN - 1 },
        flags := h.flags.set w.should_decref false } := by
  simp [Wobbly.drop, Cell.replace, Weak.drop, hf]

theorem drop_flagAt_self (w : Wobbly) (h : Heap) :
    (Wobbly.drop w h).flagAt w.should_decref = false := by
  by_cases hf : h.flagAt w.should_decref = true
  · rw [drop_eq_of_flag_true w h hf]
    exact flags_getD_set_self _ _
  · rw [drop_eq_of_flag_false w h (by simp at hf; exact hf)]
    exact flags_getD_set_self _ _

theorem dropAll_strong_of_flag_false (ws : List Wobbly) (g : Nat) (h : Heap)
    (hall : ∀ w ∈ ws, w.should_decref = g) (hf : h.flagAt g = false) :
    (dropAll ws h).alloc.strong = h.alloc.strong := by
  induction ws generalizing h with
  | nil => rfl
  | cons w ws ih =>
      have hw : w.should_decref = g := hall w (by simp)
      have hstep := drop_eq_of_flag_false w h (by rw [hw]; exact hf)
      have hflag : (Wobbly.drop w h).flagAt g = false := by
        rw [← hw]
        exact drop_flagAt_self w h
      have := ih (fun x hx => hall x (by simp [hx])) (h := Wobbly.drop w h) hflag
      rw [dropAll] at this ⊢
      simp only [List.foldl_cons] at *
      rw [this, hstep]

theorem new_eq (h : Heap) :
    Wobbly.new h =
      (⟨h.flags.length⟩,
       { alloc := { strong := h.alloc.strong, weakN := h.alloc.weakN + 1 },
         flags := h.flags ++ [true] }) := rfl

theorem new_flagAt (h : Heap) :
    (Wobbly.new h).2.flagAt (Wobbly.new h).1.should_decref = true := by
  rw [new_eq]
  exact flags_getD_append h.flags [] true false

/-! ## Claim theorems -/

/-- C4: `Wobbly::new` neither increments nor decrements the allocation's
strong count: immediately after `new` returns, the strong count equals the
count while the consumed input strong handle was alive, and the retained
strong unit is the new group's implicit hold (the fresh flag holds `true`). -/
theorem wobbly_new_preserves_strong (h : Heap) :
    ((Wobbly.new h).2).alloc.strong = h.alloc.strong ∧
    (Wobbly.new h).2.flagAt (Wobbly.new h).1.should_decref = true :=
  ⟨rfl, new_flagAt h⟩

/-- C3: `Wobbly::upgrade` returns a strong handle iff the allocation's strong
count is positive at the call, and returns `none` (no panic, no error — the
function is total with an `Option` result) exactly when the value is gone. -/
theorem wobbly_upgrade_iff_strong (w : Wobbly) (h : Heap) :
    ((Wobbly.upgrade w h).1.isSome ↔ 0 < (Wobbly.strong_count w h).1) ∧
    ((Wobbly.upgrade w h).1 = none ↔ (Wobbly.strong_count w h).1 = 0) := by
  unfold Wobbly.upgrade Weak.upgrade Wobbly.strong_count Weak.strong_count
  by_cases hs : 0 < h.alloc.strong <;> simp [hs] <;> omega

/-- C6: `clone` shares ownership of the identical `should_decref` cell (the
same cell index, so a release performed through the clone is visible through
the original handle — sharing, not a copy of the value), adds exactly one
weak-count unit, and leaves the strong count and every flag unchanged. -/
theorem wobbly_clone_shares_flag (w : Wobbly) (h : Heap) :
    (Wobbly.clone w h).1.should_decref = w.should_decref ∧
    ((Wobbly.clone w h).2).alloc.weakN = h.alloc.weakN + 1 ∧
    ((Wobbly.clone w h).2).alloc.strong = h.alloc.strong ∧
    ((Wobbly.clone w h).2).flags = h.flags ∧
    (Wobbly.drop (Wobbly.clone w h).1 (Wobbly.clone w h).2).flagAt
      w.should_decref = false :=
  ⟨rfl, rfl, rfl, rfl, drop_flagAt_self _ _⟩

/-- C8 (counterexample to the claim as stated): in `Wobbly::new`, the
`Rc::downgrade` derivation of the weak handle does change the allocation's
counts: from one owned strong handle and no weak handles, the weak count
after the derivation is `1`, not `0`. -/
theorem wobbly_new_downgrade_changes_weak :
    ¬ ((Rc.downgrade heap1).alloc.weakN = heap1.alloc.weakN) := by decide

/-- C8 (amended): in `new`, deriving the weak handle leaves the strong count
unchanged and increments the weak count by exactly one (the derived weak
handle's own unit); consequently `new` itself adds exactly one weak-count
unit. -/
theorem wobbly_new_downgrade_weak_succ (h : Heap) :
    (Rc.downgrade h).alloc.strong = h.alloc.strong ∧
    (Rc.downgrade h).alloc.weakN = h.alloc.weakN + 1 ∧
    ((Wobbly.new h).2).alloc.weakN = h.alloc.weakN + 1 :=
  ⟨rfl, rfl, rfl⟩

/-- C9: `downgrade` never fails (it is total), is independent of the group's
flag state (proved for every heap, whatever the flags hold), adds exactly one
weak-count unit, and changes neither the strong count nor any flag. -/
theorem wobbly_downgrade_pure (w : Wobbly) (h : Heap) :
    (Wobbly.downgrade w h).alloc.weakN = h.alloc.weakN + 1 ∧
    (Wobbly.downgrade w h).alloc.strong = h.alloc.strong ∧
    (Wobbly.downgrade w h).flags = h.flags :=
  ⟨rfl, rfl, rfl⟩

/-- C10: none of `downgrade`, `upgrade`, `weak_count`, `strong_count` and
`clone` writes any group's flag: the flag pool after each operation equals
the pool before, so only a member's `drop` ever releases the implicit hold
or could re-arm a group (and it never re-arms, it only writes `false`). -/
theorem wobbly_ops_preserve_flag (w : Wobbly) (h : Heap) :
    (Wobbly.downgrade w h).flags = h.flags ∧
    ((Wobbly.upgrade w h).2).flags = h.flags ∧
    ((Wobbly.weak_count w h).2).flags = h.flags ∧
    ((Wobbly.strong_count w h).2).flags = h.flags ∧
    ((Wobbly.clone w h).2).flags = h.flags := by
  refine ⟨rfl, ?_, rfl, rfl, rfl⟩
  unfold Wobbly.upgrade Weak.upgrade
  by_cases hs : 0 < h.alloc.strong <;> simp [hs]

/-- C2: the per-group flag state machine: `new` creates the group's flag
holding `true`; every `drop` leaves the dropped handle's group flag `false`
(a drop never writes `true`, so `RELEASED` is terminal under any further
drops of remaining members); and the drop decrements the strong count
exactly when it observed the flag `true`. -/
theorem wobbly_flag_state_machine (h : Heap) (w : Wobbly) :
    (Wobbly.new h).2.flagAt (Wobbly.new h).1.should_decref = true ∧
    (Wobbly.drop w h).flagAt w.should_decref = false ∧
    (Wobbly.drop w h).alloc.strong =
      (if h.flagAt w.should_decref then h.alloc.strong - 1
       else h.alloc.strong) := by
  refine ⟨new_flagAt h, drop_flagAt_self w h, ?_⟩
  by_cases hf : h.flagAt w.should_decref = true
  · rw [drop_eq_of_flag_true w h hf, hf]
    simp
  · have hf' : h.flagAt w.should_decref = false := by
      simp at hf
      exact hf
    rw [drop_eq_of_flag_false w h hf', hf']
    simp

/-- C7: dropping a handle whose group flag is already `false` leaves the
strong count unchanged and releases exactly one weak-count unit — the
handle's own internal weak handle's normal teardown. -/
theorem wobbly_drop_after_release (w : Wobbly) (h : Heap)
    (hf : h.flagAt w.should_decref = false) (hw : 0 < h.alloc.weakN) :
    (Wobbly.drop w h).alloc.strong = h.alloc.strong ∧
    (Wobbly.drop w h).alloc.weakN + 1 = h.alloc.weakN := by
  rw [drop_eq_of_flag_false w h hf]
  refine ⟨rfl, ?_⟩
  simp
  omega

/-- C7 witness: the concrete released heap `heapReleased` with its one
remaining member. -/
theorem wobbly_drop_after_release_witness :
    heapReleased.flagAt 0 = false ∧ 0 < heapReleased.alloc.weakN ∧
    ((Wobbly.drop ⟨0⟩ heapReleased).alloc.strong = heapReleased.alloc.strong ∧
     (Wobbly.drop ⟨0⟩ heapReleased).alloc.weakN + 1 = heapReleased.alloc.weakN) :=
  ⟨by decide, by decide,
    wobbly_drop_after_release ⟨0⟩ heapReleased (by decide) (by decide)⟩

theorem cloneN_alloc (n : Nat) (w : Wobbly) (h : Heap) :
    (cloneN n w h).alloc.strong = h.alloc.strong ∧
    (cloneN n w h).flags = h.flags := by
  induction n generalizing h with
  | zero => exact ⟨rfl, rfl⟩
  | succ n ih =>
      have hstep := ih (Wobbly.clone w h).2
      exact ⟨hstep.1.trans rfl, hstep.2.trans rfl⟩

/-- C1: for a group of `n` handles made by one `new` plus `n − 1` clones,
dropping all `n` members (any list of group members, hence any order — all
members of the group are the same handle value) changes the allocation's
strong count by exactly −1: never 0 and never −n. -/
theorem wobbly_group_single_decrement (h : Heap) (n : Nat) (ws : List Wobbly)
    (hn : 1 ≤ n) (hs : 0 < h.alloc.strong) (hlen : ws.length = n)
    (hall : ∀ w ∈ ws, w = (Wobbly.new h).1) :
    (dropAll ws (cloneN (n - 1) (Wobbly.new h).1 (Wobbly.new h).2)).alloc.strong + 1
      = h.alloc.strong := by
  cases ws with
  | nil =>
      rw [List.length_nil] at hlen
      omega
  | cons w ws =>
      have hw : w = (Wobbly.new h).1 := hall w (by simp)
      subst hw
      have hcl := cloneN_alloc (n - 1) (Wobbly.new h).1 (Wobbly.new h).2
      have hflag : (cloneN (n - 1) (Wobbly.new h).1 (Wobbly.new h).2).flagAt
          (Wobbly.new h).1.should_decref = true := by
        rw [Heap.flagAt, hcl.2]
        exact flags_getD_append h.flags [] true false
      have hdrop := drop_eq_of_flag_true (Wobbly.new h).1
        (cloneN (n - 1) (Wobbly.new h).1 (Wobbly.new h).2) hflag
      have hflag2 : (Wobbly.drop (Wobbly.new h).1
            (cloneN (n - 1) (Wobbly.new h).1 (Wobbly.new h).2)).flagAt
          (Wobbly.new h).1.should_decref = false :=
        drop_flagAt_self _ _
      have hrest := dropAll_strong_of_flag_false ws (Wobbly.new h).1.should_decref
        (Wobbly.drop (Wobbly.new h).1 (cloneN (n - 1) (Wobbly.new h).1 (Wobbly.new h).2))
        (fun x hx => by rw [hall x (by simp [hx])]) hflag2
      show (dropAll ws (Wobbly.drop (Wobbly.new h).1
          (cloneN (n - 1) (Wobbly.new h).1 (Wobbly.new h).2))).alloc.strong + 1
        = h.alloc.strong
      rw [hrest, hdrop]
      have hstrong : (cloneN (n - 1) (Wobbly.new h).1 (Wobbly.new h).2).alloc.strong
          = h.alloc.strong := hcl.1.trans rfl
      simp only []
      omega

/-- C1 witness: the concrete group of size 2 over `heap1`. -/
theorem wobbly_group_single_decrement_witness :
    1 ≤ 2 ∧ 0 < heap1.alloc.strong ∧
    ([Wobbly.mk 0, Wobbly.mk 0] : List Wobbly).length = 2 ∧
    (∀ w ∈ ([Wobbly.mk 0, Wobbly.mk 0] : List Wobbly), w = (Wobbly.new heap1).1) ∧
    (dropAll [Wobbly.mk 0, Wobbly.mk 0]
        (cloneN (2 - 1) (Wobbly.new heap1).1 (Wobbly.new heap1).2)).alloc.strong + 1
      = heap1.alloc.strong :=
  ⟨by decide, by decide, by decide, by decide,
    wobbly_group_single_decrement heap1 2 [Wobbly.mk 0, Wobbly.mk 0]
      (by decide) (by decide) (by decide) (by decide)⟩

/-- C5: two `new` calls on the same allocation (consuming two independent
strong handles) create groups with distinct `should_decref` cells; dropping a
member of the first group leaves the second group's flag unchanged (still
`true`), and the second group afterwards still releases its own hold exactly
once: the two drops together take the strong count down by exactly two, and
the second flag ends `false`. -/
theorem wobbly_groups_independent (h : Heap) (hs : 2 ≤ h.alloc.strong) :
    (Wobbly.new h).1.should_decref ≠ (Wobbly.new (Wobbly.new h).2).1.should_decref ∧
    (Wobbly.new (Wobbly.new h).2).2.flagAt
        (Wobbly.new (Wobbly.new h).2).1.should_decref = true ∧
    (Wobbly.drop (Wobbly.new h).1 (Wobbly.new (Wobbly.new h).2).2).flagAt
        (Wobbly.new (Wobbly.new h).2).1.should_decref
      = (Wobbly.new (Wobbly.new h).2).2.flagAt
          (Wobbly.new (Wobbly.new h).2).1.should_decref ∧
    (Wobbly.drop (Wobbly.new (Wobbly.new h).2).1
        (Wobbly.drop (Wobbly.new h).1 (Wobbly.new (Wobbly.new h).2).2)).alloc.strong + 2
      = h.alloc.strong ∧
    (Wobbly.drop (Wobbly.new (Wobbly.new h).2).1
        (Wobbly.drop (Wobbly.new h).1 (Wobbly.new (Wobbly.new h).2).2)).flagAt
        (Wobbly.new (Wobbly.new h).2).1.should_decref = false := by
  have hA1 : (Wobbly.new h).1.should_decref = h.flags.length := rfl
  have hB1 : (Wobbly.new (Wobbly.new h).2).1.should_decref = h.flags.length + 1 := by
    show (h.flags ++ [true]).length = h.flags.length + 1
    simp
  have hB2flags : (Wobbly.new (Wobbly.new h).2).2.flags = h.flags ++ [true, true] := by
    show (h.flags ++ [true]) ++ [true] = h.flags ++ [true, true]
    simp
  have hfB : (Wobbly.new (Wobbly.new h).2).2.flagAt
      (Wobbly.new (Wobbly.new h).2).1.should_decref = true := by
    rw [Heap.flagAt, hB2flags, hB1]
    exact flags_getD_append_snd h.flags [] true true false
  have hfA : (Wobbly.new (Wobbly.new h).2).2.flagAt
      (Wobbly.new h).1.should_decref = true := by
    rw [Heap.flagAt, hB2flags, hA1]
    exact flags_getD_append h.flags [true] true false
  have hd1 : Wobbly.drop (Wobbly.new h).1 (Wobbly.new (Wobbly.new h).2).2 =
      { alloc := { strong := h.alloc.strong - 1, weakN := h.alloc.weakN + 1 },
        flags := h.flags ++ [false, true] } := by
    rw [drop_eq_of_flag_true _ _ hfA, hB2flags, hA1,
      flags_set_append h.flags [true] true false]
    rfl
  have hfR : (Wobbly.drop (Wobbly.new h).1 (Wobbly.new (Wobbly.new h).2).2).flagAt
      (Wobbly.new (Wobbly.new h).2).1.should_decref = true := by
    rw [hd1, Heap.flagAt, hB1]
    exact flags_getD_append_snd h.flags [] false true false
  have hd2 : Wobbly.drop (Wobbly.new (Wobbly.new h).2).1
      (Wobbly.drop (Wobbly.new h).1 (Wobbly.new (Wobbly.new h).2).2) =
      { alloc := { strong := h.alloc.strong - 1 - 1, weakN := h.alloc.weakN },
        flags := h.flags ++ [false, false] } := by
    rw [drop_eq_of_flag_true _ _ hfR, hd1, hB1]
    simp [flags_set_append_snd h.flags [] false true false]
  refine ⟨?_, hfB, ?_, ?_, ?_⟩
  · rw [hA1, hB1]
    omega
  · rw [hfR, hfB]
  · rw [hd2]
    show h.alloc.strong - 1 - 1 + 2 = h.alloc.strong
    omega
  · rw [hd2, Heap.flagAt, hB1]
    exact flags_getD_append_snd h.flags [] false false false

/-- C5 witness: the two groups over the concrete heap `heap2` with two owned
strong handles. -/
theorem wobbly_groups_independent_witness :
    2 ≤ heap2.alloc.strong ∧
    ((Wobbly.new heap2).1.should_decref
        ≠ (Wobbly.new (Wobbly.new heap2).2).1.should_decref ∧
     (Wobbly.new (Wobbly.new heap2).2).2.flagAt
         (Wobbly.new (Wobbly.new heap2).2).1.should_decref = true ∧
     (Wobbly.drop (Wobbly.new heap2).1 (Wobbly.new (Wobbly.new heap2).2).2).flagAt
         (Wobbly.new (Wobbly.new heap2).2).1.should_decref
       = (Wobbly.new (Wobbly.new heap2).2).2.flagAt
           (Wobbly.new (Wobbly.new heap2).2).1.should_decref ∧
     (Wobbly.drop (Wobbly.new (Wobbly.new heap2).2).1
         (Wobbly.drop (Wobbly.new heap2).1 (Wobbly.new (Wobbly.new heap2).2).2)).alloc.strong + 2
       = heap2.alloc.strong ∧
     (Wobbly.drop (Wobbly.new (Wobbly.new heap2).2).1
         (Wobbly.drop (Wobbly.new heap2).1 (Wobbly.new (Wobbly.new heap2).2).2)).flagAt
         (Wobbly.new (Wobbly.new heap2).2).1.should_decref = false) :=
  ⟨by decide, wobbly_groups_independent heap2 (by decide)⟩
